import Mathlib

/-!
Verification development for the `ecole` solver-wrapper core:
the `scip::Model` handle (`src/libecole/src/scip/model.cpp`) and the
`NodeBipartite` observation extractor
(`src/libecole/include/ecole/observation/node-bipartite.hpp`).

The SCIP solver instance is embedded as an explicit record (`ScipData`);
pointer-owning handles are embedded via an explicit heap of allocated
instances (`Heap`), so that identity-based equality of handles (comparison
of the owned `unique_ptr<SCIP>`) is faithfully represented.
-/

namespace Ecole

/-- SCIP solver stages (`SCIP_STAGE_*`); only the ones the wrapper code
inspects are distinguished, the rest are listed for completeness. -/
inductive Stage where
  | init
  | problem
  | transformed
  | presolving
  | presolved
  | solving
  | solved
deriving DecidableEq

/-- `ecole::scip::ParamType`: the type tag of a SCIP parameter
(`SCIP_PARAMTYPE_*` in `Model::get_param_type`). -/
inductive ParamType where
  | Bool
  | Int
  | LongInt
  | Real
  | Char
  | String
deriving DecidableEq

/-- A typed SCIP parameter value.  `SCIP_Real` (a C `double`) is embedded as
`Rat`: the parameter interface only stores and returns values verbatim, no
floating-point arithmetic is performed on them. `SCIP_Longint` and `int` are
embedded as `Int`. -/
inductive ParamValue where
  | bool (b : Bool)
  | int (i : Int)
  | longint (i : Int)
  | real (r : Rat)
  | char (c : Char)
  | str (s : String)
deriving DecidableEq

/-- The type tag carried by a parameter value. -/
def ParamValue.typeOf : ParamValue → ParamType
  | .bool _ => .Bool
  | .int _ => .Int
  | .longint _ => .LongInt
  | .real _ => .Real
  | .char _ => .Char
  | .str _ => .String

/-- The error taxonomy of the wrapper (spec section 7): the exceptions raised
by `model.cpp` (`make_exception(SCIP_PARAMETERUNKNOWN)`, the type-mismatch
exception, the "only available during solving" stage exception, and the
"Cannot create empty model" exception). -/
inductive ScipError where
  | unknownParameter
  | typeMismatch
  | stageViolation
  | invalidModel
deriving DecidableEq

/-- `SCIP_VARTYPE_*`: variable type of a problem variable / LP column. -/
inductive VarType where
  | binary
  | integer
  | implicitInteger
  | continuous
deriving DecidableEq

/-- `SCIP_BASESTAT_*`: simplex basis status of an LP column. -/
inductive BasisStatus where
  | lower
  | basic
  | upper
  | zero
deriving DecidableEq

/-- One LP column (variable in the active relaxation) as observed through
the wrapper's `ColView`.  Fields are the quantities the `NodeBipartite`
feature computation (spec section 4.4) reads; normalised quantities
(`normedReducedCost`, `scaledAge`, ...) are carried already scaled since
their scaling is done inside the solver queries. -/
structure ColData where
  objective : Rat
  varType : VarType
  hasLb : Bool
  hasUb : Bool
  normedReducedCost : Rat
  solutionValue : Rat
  solutionFrac : Rat
  atLb : Bool
  atUb : Bool
  scaledAge : Rat
  incumbentValue : Rat
  avgIncumbentValue : Rat
  basisStatus : BasisStatus
  varIndex : Nat
deriving DecidableEq

/-- One LP row (active relaxation row) as observed through the wrapper's
`RowView`, with its nonzero coefficients `(column position, value)`. -/
structure RowData where
  bias : Rat
  objCosSim : Rat
  isTight : Bool
  dualValue : Rat
  scaledAge : Rat
  coefs : List (Nat × Rat)
deriving DecidableEq

/-- One SCIP solver-process instance: its stage, its parameter table
(name, declared type tag, current value), the loaded problem (if any) and
the columns/rows of the active LP relaxation (nonempty only while
solving). -/
structure ScipData where
  stage : Stage
  params : List (String × ParamType × ParamValue)
  problem : Option String
  lpCols : List ColData
  lpRows : List RowData
deriving DecidableEq

/-- The instance produced by `create()` in `model.cpp`: a fresh SCIP in
`SCIP_STAGE_INIT`, message handler quiet, no plugins included yet (hence no
parameters registered). -/
def ScipData.fresh : ScipData :=
  { stage := Stage.init
    params := []
    problem := none
    lpCols := []
    lpRows := [] }

/-- Update the value of parameter `name` in a parameter table, keeping its
declared type tag (the store side of `SCIPset*Param`). -/
def updateParam (ps : List (String × ParamType × ParamValue)) (name : String)
    (v : ParamValue) : List (String × ParamType × ParamValue) :=
  match ps with
  | [] => []
  | (n, t, w) :: rest =>
    if name == n then (n, t, v) :: rest else (n, t, w) :: updateParam rest name v

/-- `Model::get_param_type` (`model.cpp:104`): `SCIPgetParam` returns null for
an unknown name, in which case `make_exception(SCIP_PARAMETERUNKNOWN)` is
thrown; otherwise the declared `SCIP_PARAMTYPE_*` tag is translated. -/
def ScipData.get_param_type (d : ScipData) (name : String) :
    Except ScipError ParamType :=
  match d.params.lookup name with
  | none => Except.error ScipError.unknownParameter
  | some (t, _) => Except.ok t

/-- The typed parameter setters `internal::set_scip_param`
(`model.cpp:208-228`) together with the SCIP library's `SCIPset*Param`
semantics: unknown name fails with `SCIP_PARAMETERUNKNOWN`, a declared tag
different from the supplied value's type fails with
`SCIP_PARAMETERWRONGTYPE`, otherwise the value is stored. -/
def ScipData.setParamTyped (d : ScipData) (name : String) (v : ParamValue) :
    Except ScipError ScipData :=
  match d.params.lookup name with
  | none => Except.error ScipError.unknownParameter
  | some (t, _) =>
    if t = v.typeOf then
      Except.ok { d with params := updateParam d.params name v }
    else Except.error ScipError.typeMismatch

/-- The typed parameter getters `internal::get_scip_param`
(`model.cpp:230-259`) together with the SCIP library's `SCIPget*Param`
semantics: unknown name fails, a declared tag different from the requested
type fails with a type mismatch, otherwise the stored value is returned. -/
def ScipData.getParamTyped (d : ScipData) (name : String) (ty : ParamType) :
    Except ScipError ParamValue :=
  match d.params.lookup name with
  | none => Except.error ScipError.unknownParameter
  | some (t, v) => if t = ty then Except.ok v else Except.error ScipError.typeMismatch

/-- The parameter read and written by `Model::seed` (`model.cpp:133-144`). -/
def seedParamName : String := "randomization/randomseedshift"

/-- `Model::seed(seed_v)` (`model.cpp:141`):
`set_param_explicit<int>("randomization/randomseedshift", std::abs(seed_v))`;
the magnitude of the argument is stored. -/
def ScipData.seedWrite (d : ScipData) (v : Int) : Except ScipError ScipData :=
  d.setParamTyped seedParamName (ParamValue.int (Int.natAbs v : Int))

/-- `Model::seed()` (`model.cpp:133`):
`get_param_explicit<int>("randomization/randomseedshift")`. -/
def ScipData.seedRead (d : ScipData) : Except ScipError Int :=
  match d.getParamTyped seedParamName ParamType.Int with
  | Except.ok (ParamValue.int i) => Except.ok i
  | Except.ok _ => Except.error ScipError.typeMismatch
  | Except.error e => Except.error e

/-- A small concrete parameter table mirroring a few parameters registered by
`SCIPincludeDefaultPlugins`, used as a sample instance in witnesses. -/
def sampleParams : List (String × ParamType × ParamValue) :=
  [ (seedParamName, (ParamType.Int, ParamValue.int 0)),
    ("limits/time", (ParamType.Real, ParamValue.real 3600)),
    ("branching/scorefunc", (ParamType.Char, ParamValue.char 'p')),
    ("presolving/maxrounds", (ParamType.Int, ParamValue.int (-1))),
    ("display/allframes", (ParamType.Bool, ParamValue.bool true)),
    ("limits/nodes", (ParamType.LongInt, ParamValue.longint (-1))),
    ("visual/vbcfilename", (ParamType.String, ParamValue.str "-")) ]

/-- Sample instance sitting in the problem stage. -/
def dProblem : ScipData :=
  { stage := Stage.problem
    params := sampleParams
    problem := some "model.lp"
    lpCols := []
    lpRows := [] }

/-! ### Handles and the instance heap

`Model` owns its instance through a `unique_ptr<SCIP>`; `operator==`
compares those pointers.  Pointers are embedded as natural numbers
allocated from an explicit heap, so that distinct allocations always get
distinct addresses. -/

/-- The allocation state: the next fresh address and the association of
live addresses to solver instances. -/
structure Heap where
  next : Nat
  store : List (Nat × ScipData)
deriving DecidableEq

/-- Every live address is below the allocation counter, so a fresh address
never collides with a live one. -/
def Heap.wf (h : Heap) : Prop :=
  ∀ p ∈ h.store, p.1 < h.next

instance (h : Heap) : Decidable h.wf := by
  unfold Heap.wf; infer_instance

/-- Allocate a new instance at a fresh address. -/
def Heap.alloc (h : Heap) (d : ScipData) : Heap × Nat :=
  ({ next := h.next + 1, store := (h.next, d) :: h.store }, h.next)

/-- `create()` (`model.cpp:23-30`): a fresh quiet instance in the
initial stage. -/
def scipCreate (h : Heap) : Heap × Nat :=
  h.alloc ScipData.fresh

/-- The content `SCIPcopy` (`model.cpp:39-49`) gives the destination
instance: plugins and parameter settings are copied, the problem is copied
(leaving the destination holding the copied problem), and stage-transient LP
data is not carried over. -/
def ScipData.clone (d : ScipData) : ScipData :=
  { stage := Stage.problem
    params := d.params
    problem := d.problem
    lpCols := []
    lpRows := [] }

/-- `copy(SCIP const* source)` (`model.cpp:32-51`): null source gives null;
a source in `SCIP_STAGE_INIT` gives a fresh `create()` instance; otherwise a
fresh instance receives a deep clone of the source via `SCIPcopy` (the
process-wide lock only serialises the clone and has no sequential effect).
A dangling address cannot arise from the wrapper's own operations; on such
an address this embedding returns null. -/
def scipCopy (h : Heap) : Option Nat → Heap × Option Nat
  | none => (h, none)
  | some p =>
    match h.store.lookup p with
    | none => (h, none)
    | some d =>
      if d.stage = Stage.init then
        let (h', q) := scipCreate h
        (h', some q)
      else
        let (h', q) := h.alloc d.clone
        (h', some q)

/-- `ecole::scip::Model`: a handle owning one instance through the address
of its `unique_ptr<SCIP>`. -/
structure Model where
  scip : Nat
deriving DecidableEq

/-- `Model::operator==` (`model.cpp:75-77`): comparison of the owned
`unique_ptr`s, i.e. of the instance addresses. -/
def Model.eq (a b : Model) : Bool :=
  a.scip == b.scip

/-- `Model::operator!=` (`model.cpp:79-81`). -/
def Model.ne (a b : Model) : Bool :=
  !(Model.eq a b)

/-- Parameters registered by `SCIPincludeDefaultPlugins`
(`Model::Model()`, `model.cpp:57-59`), restricted to the sample table. -/
def includeDefaultPlugins (d : ScipData) : ScipData :=
  { d with params := sampleParams }

/-- `Model::Model()` (`model.cpp:57-59`): `create()` then
`SCIPincludeDefaultPlugins`. -/
def modelCreate (h : Heap) : Heap × Model :=
  let (h', p) := scipCreate h
  ({ h' with store := (p, includeDefaultPlugins ScipData.fresh) :: h.store }, Model.mk p)

/-- `Model::Model(Model const& other)` (`model.cpp:68`): the new handle owns
`copy(other.get_scip_ptr())`.  For a live source the copy is non-null; the
dangling-source case cannot arise and is mapped to the source handle
itself. -/
def Model.copyCtor (h : Heap) (other : Model) : Heap × Model :=
  match scipCopy h (some other.scip) with
  | (h', some p) => (h', ⟨p⟩)
  | (h', none) => (h', other)

/-- `Model::operator=` (`model.cpp:70-73`): `if (&other != this) scip =
copy(other.get_scip_ptr())`.  `same` embeds the address comparison
`&other == this`; C++ guarantees that when it holds, `self` and `other` are
the same object, so the arguments are then the same handle. -/
def Model.assign (h : Heap) (self other : Model) (same : Bool) :
    Heap × Model :=
  if same then (h, self)
  else
    match scipCopy h (some other.scip) with
    | (h', some p) => (h', Model.mk p)
    | (h', none) => (h', self)

/-- `Model::read_prob` (`model.cpp:89-91`): load a problem description into
the owned instance (success case; parse failures raise a `FileError` and
are outside the claims). -/
def ScipData.readProb (d : ScipData) (filename : String) : ScipData :=
  { d with stage := Stage.problem, problem := some filename }

/-- `Heap.setAt h p d` writes instance data `d` at address `p`. -/
def Heap.setAt (h : Heap) (p : Nat) (d : ScipData) : Heap :=
  { h with store := h.store.map (fun q => if q.1 = p then (p, d) else q) }

/-! ### Views over LP columns and rows -/

/-- `ecole::scip::ColView`: an ordered read-only view over the LP columns. -/
structure ColView where
  cols : List ColData
deriving DecidableEq

/-- `ecole::scip::RowView`: an ordered read-only view over the LP rows. -/
structure RowView where
  rows : List RowData
deriving DecidableEq

/-- `SCIPgetNLPCols`: the solver-reported column count of the active
relaxation. -/
def ScipData.nLPCols (d : ScipData) : Nat :=
  d.lpCols.length

/-- `SCIPgetNLPRows`: the solver-reported row count of the active
relaxation. -/
def ScipData.nLPRows (d : ScipData) : Nat :=
  d.lpRows.length

/-- `Model::lp_columns` (`model.cpp:186-192`): throws unless the stage is
exactly `SCIP_STAGE_SOLVING`, otherwise returns a view over
`SCIPgetLPCols` of length `SCIPgetNLPCols`. -/
def ScipData.lp_columns (d : ScipData) : Except ScipError ColView :=
  if d.stage ≠ Stage.solving then Except.error ScipError.stageViolation
  else Except.ok ⟨d.lpCols⟩

/-- `Model::lp_rows` (`model.cpp:194-200`): throws unless the stage is
exactly `SCIP_STAGE_SOLVING`, otherwise returns a view over
`SCIPgetLPRows` of length `SCIPgetNLPRows`. -/
def ScipData.lp_rows (d : ScipData) : Except ScipError RowView :=
  if d.stage ≠ Stage.solving then Except.error ScipError.stageViolation
  else Except.ok ⟨d.lpRows⟩

/-- `Model::lp_columns` lifted to a handle over the heap; a dangling handle
cannot arise from the wrapper's operations and is mapped to the
invalid-model error. -/
def Model.lp_columns (h : Heap) (m : Model) : Except ScipError ColView :=
  match h.store.lookup m.scip with
  | none => Except.error ScipError.invalidModel
  | some d => d.lp_columns

/-- `Model::lp_rows` lifted to a handle over the heap. -/
def Model.lp_rows (h : Heap) (m : Model) : Except ScipError RowView :=
  match h.store.lookup m.scip with
  | none => Except.error ScipError.invalidModel
  | some d => d.lp_rows

/-! ### NodeBipartite observations

The header `ecole/observation/node-bipartite.hpp` declares the observation
layout (feature counts and order) and the extractor's members
(`the_cache`, `use_cache`, `cache_computed`); the member-function bodies are
not part of the sources and are modelled from the spec (sections 4.3, 4.4). -/

/-- `NodeBipartiteObs::n_static_variable_features` (header line 16). -/
def n_static_variable_features : Nat := 5

/-- `NodeBipartiteObs::n_dynamic_variable_features` (header line 17). -/
def n_dynamic_variable_features : Nat := 15

/-- `NodeBipartiteObs::n_variable_features` (header line 18). -/
def n_variable_features : Nat :=
  n_static_variable_features + n_dynamic_variable_features

/-- `NodeBipartiteObs::n_static_row_features` (header line 45). -/
def n_static_row_features : Nat := 2

/-- `NodeBipartiteObs::n_dynamic_row_features` (header line 46). -/
def n_dynamic_row_features : Nat := 3

/-- `NodeBipartiteObs::n_row_features` (header line 47). -/
def n_row_features : Nat := n_static_row_features + n_dynamic_row_features

/-- A boolean feature as a numeric entry. -/
def boolFeat (b : Bool) : Rat := if b then 1 else 0

/-- The static block of one variable's feature row, in the declared order of
`NodeBipartiteObs::VariableFeatures`: objective coefficient, then the
one-hot type flags. -/
def staticVariableFeatures (c : ColData) : List Rat :=
  [ c.objective,
    if c.varType = VarType.binary then 1 else 0,
    if c.varType = VarType.integer then 1 else 0,
    if c.varType = VarType.implicitInteger then 1 else 0,
    if c.varType = VarType.continuous then 1 else 0 ]

/-- The dynamic block of one variable's feature row, in the declared order
of `NodeBipartiteObs::VariableFeatures`. -/
def dynamicVariableFeatures (c : ColData) : List Rat :=
  [ boolFeat c.hasLb,
    boolFeat c.hasUb,
    c.normedReducedCost,
    c.solutionValue,
    c.solutionFrac,
    boolFeat c.atLb,
    boolFeat c.atUb,
    c.scaledAge,
    c.incumbentValue,
    c.avgIncumbentValue,
    if c.basisStatus = BasisStatus.lower then 1 else 0,
    if c.basisStatus = BasisStatus.basic then 1 else 0,
    if c.basisStatus = BasisStatus.upper then 1 else 0,
    if c.basisStatus = BasisStatus.zero then 1 else 0,
    (c.varIndex : Rat) ]

/-- The static block of one row's feature row
(`NodeBipartiteObs::RowFeatures`): bias and objective cosine similarity. -/
def staticRowFeatures (r : RowData) : List Rat :=
  [r.bias, r.objCosSim]

/-- The dynamic block of one row's feature row
(`NodeBipartiteObs::RowFeatures`). -/
def dynamicRowFeatures (r : RowData) : List Rat :=
  [boolFeat r.isTight, r.dualValue, r.scaledAge]

/-- `ecole::utility::coo_matrix`: a sparse coordinate matrix,
`(row, column, value)` entries plus a shape. -/
structure CooMatrix where
  entries : List (Nat × Nat × Rat)
  shape : Nat × Nat
deriving DecidableEq

/-- Edge entries of the bipartite graph: one `(row index, column index,
coefficient)` triple per nonzero coefficient, rows numbered from `i`. -/
def edgeEntriesAux : Nat → List RowData → List (Nat × Nat × Rat)
  | _, [] => []
  | i, r :: rest =>
    r.coefs.map (fun jv => (i, jv.1, jv.2)) ++ edgeEntriesAux (i + 1) rest

/-- Edge entries of the bipartite graph over all LP rows. -/
def edgeEntries (rows : List RowData) : List (Nat × Nat × Rat) :=
  edgeEntriesAux 0 rows

/-- The structural nonzero count of the active relaxation: the total number
of nonzero coefficients over its rows. -/
def structuralNnz (rows : List RowData) : Nat :=
  (rows.map (fun r => r.coefs.length)).sum

/-- `ecole::observation::NodeBipartiteObs` (header lines 13-62): dense
variable and row feature matrices (embedded row-major as lists of feature
rows) and the sparse edge matrix. -/
structure NodeBipartiteObs where
  variable_features : List (List Rat)
  row_features : List (List Rat)
  edge_features : CooMatrix
deriving DecidableEq

/-- Modelled from the spec: the from-scratch observation computation of
`NodeBipartite::extract` (spec section 4.4; the implementation file is not
among the sources).  Every variable row is its static block followed by its
dynamic block, every constraint row likewise; the edge matrix has shape
(rows × variables) with one entry per nonzero coefficient. -/
def extractObsFrom (cols : List ColData) (rows : List RowData) :
    NodeBipartiteObs :=
  { variable_features :=
      cols.map (fun c => staticVariableFeatures c ++ dynamicVariableFeatures c)
    row_features :=
      rows.map (fun r => staticRowFeatures r ++ dynamicRowFeatures r)
    edge_features :=
      { entries := edgeEntries rows, shape := (rows.length, cols.length) } }

/-- Modelled from the spec: the cache-hit path of `NodeBipartite::extract`
(spec section 4.3; the implementation file is not among the sources).  The
cached static columns and the cached edge structure are reused; only the
dynamic columns are recomputed from the current state. -/
def updateFromCache (cache : NodeBipartiteObs) (cols : List ColData)
    (rows : List RowData) : NodeBipartiteObs :=
  { variable_features :=
      List.zipWith
        (fun row c => row.take n_static_variable_features ++ dynamicVariableFeatures c)
        cache.variable_features cols
    row_features :=
      List.zipWith
        (fun row r => row.take n_static_row_features ++ dynamicRowFeatures r)
        cache.row_features rows
    edge_features := cache.edge_features }

/-- `ecole::observation::NodeBipartite` (header lines 64-76): the retained
cache, the caching setting and the cache-populated flag. -/
structure NodeBipartite where
  the_cache : NodeBipartiteObs
  use_cache : Bool
  cache_computed : Bool
deriving DecidableEq

/-- The observation default-constructed together with the extractor. -/
def emptyObs : NodeBipartiteObs :=
  { variable_features := []
    row_features := []
    edge_features := { entries := [], shape := (0, 0) } }

/-- `NodeBipartite::NodeBipartite(bool cache)` (header line 66). -/
def NodeBipartite.new (cache : Bool) : NodeBipartite :=
  { the_cache := emptyObs, use_cache := cache, cache_computed := false }

/-- Modelled from the spec: `NodeBipartite::before_reset` clears the
cache-populated flag and does not touch `use_cache` (spec section 4.3; the
implementation file is not among the sources). -/
def NodeBipartite.before_reset (nb : NodeBipartite) : NodeBipartite :=
  { nb with cache_computed := false }

/-- Modelled from the spec: `NodeBipartite::extract(model, done)` (spec
section 4.3; the implementation file is not among the sources).  When `done`
it produces no observation; otherwise it reads the LP columns and rows
through the handle (surfacing the handle's stage violation outside the
solving stage, spec section 7), computes the observation from scratch on a
cache miss or with caching disabled (populating the cache when enabled),
and refreshes only the dynamic blocks from the cached observation on a
cache hit. -/
def NodeBipartite.extract (nb : NodeBipartite) (d : ScipData) (done : Bool) :
    Except ScipError (NodeBipartite × Option NodeBipartiteObs) :=
  if done then Except.ok (nb, none)
  else
    match d.lp_columns, d.lp_rows with
    | Except.ok cv, Except.ok rv =>
      if nb.use_cache && nb.cache_computed then
        let obs := updateFromCache nb.the_cache cv.cols rv.rows
        Except.ok ({ nb with the_cache := obs }, some obs)
      else
        let obs := extractObsFrom cv.cols rv.rows
        Except.ok
          (if nb.use_cache then
            { nb with the_cache := obs, cache_computed := true }
          else nb, some obs)
    | Except.error e, _ => Except.error e
    | _, Except.error e => Except.error e

/-- The static variable block of an observation: the first
`n_static_variable_features` entries of every variable row. -/
def staticVarBlock (o : NodeBipartiteObs) : List (List Rat) :=
  o.variable_features.map (List.take n_static_variable_features)

/-- The dynamic variable block of an observation. -/
def dynVarBlock (o : NodeBipartiteObs) : List (List Rat) :=
  o.variable_features.map (List.drop n_static_variable_features)

/-- The static row block of an observation. -/
def staticRowBlock (o : NodeBipartiteObs) : List (List Rat) :=
  o.row_features.map (List.take n_static_row_features)

/-- The dynamic row block of an observation. -/
def dynRowBlock (o : NodeBipartiteObs) : List (List Rat) :=
  o.row_features.map (List.drop n_static_row_features)

/-- The static data of an LP column: the features fixed once the problem is
fixed (objective coefficient and variable type). -/
def ColData.staticPart (c : ColData) : Rat × VarType :=
  (c.objective, c.varType)

/-- The static data of an LP row: bias, objective cosine similarity and the
nonzero coefficient structure. -/
def RowData.staticPart (r : RowData) : Rat × Rat × List (Nat × Rat) :=
  (r.bias, r.objCosSim, r.coefs)

/-- Two solver states between which only dynamic state changed: same
variable/row/edge structure and same static data. -/
def sameStaticStructure (d1 d2 : ScipData) : Prop :=
  d1.lpCols.map ColData.staticPart = d2.lpCols.map ColData.staticPart ∧
  d1.lpRows.map RowData.staticPart = d2.lpRows.map RowData.staticPart

instance (d1 d2 : ScipData) : Decidable (sameStaticStructure d1 d2) := by
  unfold sameStaticStructure; infer_instance

/-! ### Sample data for witnesses -/

/-- A binary variable column. -/
def col1 : ColData :=
  { objective := 1
    varType := VarType.binary
    hasLb := true
    hasUb := true
    normedReducedCost := 0
    solutionValue := 4
    solutionFrac := 0
    atLb := false
    atUb := false
    scaledAge := 0
    incumbentValue := 0
    avgIncumbentValue := 0
    basisStatus := BasisStatus.basic
    varIndex := 0 }

/-- A continuous variable column. -/
def col2 : ColData :=
  { objective := -2
    varType := VarType.continuous
    hasLb := true
    hasUb := false
    normedReducedCost := 2
    solutionValue := 0
    solutionFrac := 0
    atLb := true
    atUb := false
    scaledAge := 3
    incumbentValue := 0
    avgIncumbentValue := 0
    basisStatus := BasisStatus.lower
    varIndex := 1 }

/-- An LP row touching both sample columns. -/
def row1 : RowData :=
  { bias := 3
    objCosSim := 1
    isTight := true
    dualValue := 1
    scaledAge := 0
    coefs := [(0, 1), (1, 2)] }

/-- Sample instance in the solving stage. -/
def dSolving : ScipData :=
  { stage := Stage.solving
    params := sampleParams
    problem := some "model.lp"
    lpCols := [col1, col2]
    lpRows := [row1] }

/-- `dSolving` after only dynamic state changed: same static structure,
different solution values, tightness and duals. -/
def dSolving' : ScipData :=
  { dSolving with
    lpCols :=
      [ { col1 with solutionValue := 1, solutionFrac := 0, atUb := true, basisStatus := BasisStatus.upper },
        { col2 with solutionValue := 5, atLb := false, basisStatus := BasisStatus.basic } ]
    lpRows := [{ row1 with isTight := false, dualValue := 0, scaledAge := 2 }] }

/-- Sample heap: one solving-stage instance at address 0 and one
problem-stage instance at address 1. -/
def heap0 : Heap :=
  { next := 2, store := [(0, dSolving), (1, dProblem)] }

/-- Handle owning the solving-stage instance of `heap0`. -/
def m0 : Model := Model.mk 0

/-- Handle owning the problem-stage instance of `heap0`. -/
def m1 : Model := Model.mk 1

/-- Sample heap whose only instance is still uninitialised. -/
def heapInit : Heap :=
  { next := 1, store := [(0, ScipData.fresh)] }

/-- Two independently built handles holding identical problems:
`Model::Model()` twice, then `read_prob` with the same file on each owned
instance (loading mutates the instances, never the owning pointers). -/
def twoModels (h : Heap) (f : String) : Heap × Model × Model :=
  let (h1, a) := modelCreate h
  let (h2, b) := modelCreate h1
  let h3 :=
    (h2.setAt a.scip ((includeDefaultPlugins ScipData.fresh).readProb f)).setAt
      b.scip ((includeDefaultPlugins ScipData.fresh).readProb f)
  (h3, a, b)

/-- `dProblem` after setting the time limit to 7 (used as a witness). -/
def dProblem7 : ScipData :=
  { dProblem with params := updateParam sampleParams "limits/time" (ParamValue.real 7) }

/-- `dProblem` after seeding with magnitude 5 (used as a witness). -/
def dSeed5 : ScipData :=
  { dProblem with params := updateParam sampleParams seedParamName (ParamValue.int 5) }

/-- Shape facts holding of every observation either extraction path
produces over `nCols` columns and `nRows` rows: matching outer dimensions,
and every feature row at least as long as its static block. -/
def obsShaped (o : NodeBipartiteObs) (nCols nRows : Nat) : Prop :=
  o.variable_features.length = nCols ∧
  o.row_features.length = nRows ∧
  (∀ row ∈ o.variable_features, n_static_variable_features ≤ row.length) ∧
  (∀ row ∈ o.row_features, n_static_row_features ≤ row.length)

-- Helper lemmas (not claim theorems).

/-- Looking a name up after updating it: the declared tag is kept and the
value is replaced. -/
theorem lookup_updateParam (ps : List (String × ParamType × ParamValue))
    (name : String) (v : ParamValue) (t : ParamType) (w : ParamValue)
    (h : ps.lookup name = some (t, w)) :
    (updateParam ps name v).lookup name = some (t, v) := by
  induction ps with
  | nil => simp [List.lookup] at h
  | cons p rest ih =>
    obtain ⟨n, t0, w0⟩ := p
    by_cases hn : name = n
    · subst hn
      simp [List.lookup] at h
      simp [updateParam, List.lookup, h.1]
    · have hb : (name == n) = false := by simp [hn]
      simp [List.lookup, hb] at h
      simp [updateParam, List.lookup, hb]
      exact ih h

/-- Set-then-get round trip, as a reusable lemma. -/
theorem setParamTyped_getParamTyped (d : ScipData) (name : String)
    (v : ParamValue) (d' : ScipData)
    (h : d.setParamTyped name v = Except.ok d') :
    d'.getParamTyped name v.typeOf = Except.ok v := by
  unfold ScipData.setParamTyped at h
  cases hl : d.params.lookup name with
  | none => rw [hl] at h; exact absurd h (by simp)
  | some tv =>
    obtain ⟨t, w⟩ := tv
    rw [hl] at h
    by_cases ht : t = v.typeOf
    · simp only [ht, if_pos rfl] at h
      cases h
      unfold ScipData.getParamTyped
      simp only
      rw [lookup_updateParam d.params name v (v.typeOf) w (ht ▸ hl)]
      simp
    · simp [ht] at h

/-- A successful lookup of an address finds a live entry. -/
theorem mem_of_lookup_some {p : Nat} {d : ScipData} {l : List (Nat × ScipData)}
    (h : l.lookup p = some d) : (p, d) ∈ l := by
  induction l with
  | nil => simp [List.lookup] at h
  | cons q rest ih =>
    obtain ⟨k, w⟩ := q
    by_cases hk : p = k
    · subst hk
      simp [List.lookup] at h
      subst h
      exact List.mem_cons_self _ _
    · have hb : (p == k) = false := by simp [hk]
      simp [List.lookup, hb] at h
      exact List.mem_cons_of_mem _ (ih h)

/-- In a well-formed heap, a live address is below the allocation counter. -/
theorem lookup_lt_next {h : Heap} {p : Nat} {d : ScipData}
    (hwf : h.wf) (hm : h.store.lookup p = some d) : p < h.next :=
  hwf (p, d) (mem_of_lookup_some hm)

/-! ### Claim theorems -/

/-- C1: for every handle over a live instance, `lp_rows` and `lp_columns`
fail with the stage-violation error whenever the instance's stage is not
exactly the solving stage, and succeed in the solving stage with views
whose lengths equal the solver-reported row and column counts. -/
theorem lp_views_require_solving_stage (h : Heap) (m : Model) (d : ScipData)
    (hm : h.store.lookup m.scip = some d) :
    (d.stage ≠ Stage.solving →
      Model.lp_rows h m = Except.error ScipError.stageViolation ∧
      Model.lp_columns h m = Except.error ScipError.stageViolation) ∧
    (d.stage = Stage.solving →
      ∃ rv cv, Model.lp_rows h m = Except.ok rv ∧
        Model.lp_columns h m = Except.ok cv ∧
        rv.rows.length = d.nLPRows ∧ cv.cols.length = d.nLPCols) := by
  have hr : Model.lp_rows h m = d.lp_rows := by
    unfold Model.lp_rows; rw [hm]
  have hc : Model.lp_columns h m = d.lp_columns := by
    unfold Model.lp_columns; rw [hm]
  rw [hr, hc]
  unfold ScipData.lp_rows ScipData.lp_columns
  constructor
  · intro hs
    rw [if_pos hs, if_pos hs]
    exact ⟨rfl, rfl⟩
  · intro hs
    rw [if_neg (by simp [hs]), if_neg (by simp [hs])]
    exact ⟨⟨d.lpRows⟩, ⟨d.lpCols⟩, rfl, rfl, rfl, rfl⟩

/-- C1 witness: concrete handles, one in the solving stage and one not. -/
theorem lp_views_require_solving_stage_witness :
    (heap0.store.lookup m0.scip = some dSolving ∧
      (dSolving.stage = Stage.solving →
        ∃ rv cv, Model.lp_rows heap0 m0 = Except.ok rv ∧
          Model.lp_columns heap0 m0 = Except.ok cv ∧
          rv.rows.length = dSolving.nLPRows ∧
          cv.cols.length = dSolving.nLPCols)) ∧
    (heap0.store.lookup m1.scip = some dProblem ∧
      (dProblem.stage ≠ Stage.solving →
        Model.lp_rows heap0 m1 = Except.error ScipError.stageViolation ∧
        Model.lp_columns heap0 m1 = Except.error ScipError.stageViolation)) :=
  ⟨⟨by decide,
      (lp_views_require_solving_stage heap0 m0 dSolving (by decide)).2⟩,
    ⟨by decide,
      (lp_views_require_solving_stage heap0 m1 dProblem (by decide)).1⟩⟩

/-- C2: for every extractor state and every solver state, `extract` with
`done = true` produces no observation and leaves the extractor (and in
particular its cache) untouched. -/
theorem extract_done_yields_none (nb : NodeBipartite) (d : ScipData) :
    nb.extract d true = Except.ok (nb, none) := by
  unfold NodeBipartite.extract
  rw [if_pos rfl]

/-- `copy` on a live source in the initial stage: a fresh instance at the
fresh address. -/
theorem scipCopy_init_eq (h : Heap) (p : Nat) (d : ScipData)
    (hm : h.store.lookup p = some d) (hs : d.stage = Stage.init) :
    scipCopy h (some p) =
      ({ next := h.next + 1, store := (h.next, ScipData.fresh) :: h.store },
        some h.next) := by
  simp only [scipCopy]
  rw [hm]
  simp only [hs]
  simp [scipCreate, Heap.alloc]

/-- `copy` on a live source past the initial stage: the clone at the fresh
address. -/
theorem scipCopy_clone_eq (h : Heap) (p : Nat) (d : ScipData)
    (hm : h.store.lookup p = some d) (hs : d.stage ≠ Stage.init) :
    scipCopy h (some p) =
      ({ next := h.next + 1, store := (h.next, d.clone) :: h.store },
        some h.next) := by
  simp only [scipCopy]
  rw [hm]
  simp only [hs, if_neg]
  simp [Heap.alloc]

/-- Whatever the source's stage, `copy` of a live source allocates at the
fresh address. -/
theorem scipCopy_snd (h : Heap) (p : Nat) (d : ScipData)
    (hm : h.store.lookup p = some d) :
    (scipCopy h (some p)).2 = some h.next := by
  by_cases hs : d.stage = Stage.init
  · rw [scipCopy_init_eq h p d hm hs]
  · rw [scipCopy_clone_eq h p d hm hs]

/-- C5: handle equality is identity of the underlying instance.  The
copy-constructed handle never compares equal to its source; two
independently built handles loaded with the same problem file never compare
equal; and two handles compare equal exactly when they own the same
instance address. -/
theorem model_equality_is_identity (h : Heap) (m : Model) (d : ScipData)
    (hwf : h.wf) (hm : h.store.lookup m.scip = some d) :
    Model.eq (Model.copyCtor h m).2 m = false ∧
    (∀ f : String,
      Model.eq (twoModels h f).2.1 (twoModels h f).2.2 = false) ∧
    (∀ a b : Model, Model.eq a b = true ↔ a.scip = b.scip) := by
  have hlt : m.scip < h.next := lookup_lt_next hwf hm
  refine ⟨?_, ?_, ?_⟩
  · have h2 : (Model.copyCtor h m).2.scip = h.next := by
      unfold Model.copyCtor
      by_cases hs : d.stage = Stage.init
      · rw [scipCopy_init_eq h m.scip d hm hs]
      · rw [scipCopy_clone_eq h m.scip d hm hs]
    unfold Model.eq
    rw [h2]
    simp
    omega
  · intro f
    unfold twoModels modelCreate scipCreate Heap.alloc Model.eq
    simp
  · intro a b
    unfold Model.eq
    simp

/-- C5 witness: a live solving-stage handle in the sample heap. -/
theorem model_equality_is_identity_witness :
    heap0.wf ∧ heap0.store.lookup m0.scip = some dSolving ∧
    Model.eq (Model.copyCtor heap0 m0).2 m0 = false :=
  ⟨by decide, by rfl,
    (model_equality_is_identity heap0 m0 dSolving (by decide) (by rfl)).1⟩

/-- C6: `copy` of a null source is null; `copy` of a live source in the
initial stage allocates a fresh default instance rather than a clone; in
every other stage it allocates a deep clone of the source instance. -/
theorem copy_null_init_or_clone (h : Heap) (p : Nat) (d : ScipData)
    (hm : h.store.lookup p = some d) :
    scipCopy h none = (h, none) ∧
    (d.stage = Stage.init →
      (scipCopy h (some p)).2 = some h.next ∧
      (scipCopy h (some p)).1.store.lookup h.next = some ScipData.fresh) ∧
    (d.stage ≠ Stage.init →
      (scipCopy h (some p)).2 = some h.next ∧
      (scipCopy h (some p)).1.store.lookup h.next = some d.clone) := by
  refine ⟨rfl, ?_, ?_⟩
  · intro hs
    rw [scipCopy_init_eq h p d hm hs]
    exact ⟨rfl, by simp [List.lookup]⟩
  · intro hs
    rw [scipCopy_clone_eq h p d hm hs]
    exact ⟨rfl, by simp [List.lookup]⟩

/-- C6 witness: an uninitialised source and a solving-stage source. -/
theorem copy_null_init_or_clone_witness :
    (heapInit.store.lookup 0 = some ScipData.fresh ∧
      (ScipData.fresh.stage = Stage.init →
        (scipCopy heapInit (some 0)).2 = some heapInit.next ∧
        (scipCopy heapInit (some 0)).1.store.lookup heapInit.next =
          some ScipData.fresh)) ∧
    (heap0.store.lookup 0 = some dSolving ∧
      (dSolving.stage ≠ Stage.init →
        (scipCopy heap0 (some 0)).2 = some heap0.next ∧
        (scipCopy heap0 (some 0)).1.store.lookup heap0.next =
          some dSolving.clone)) :=
  ⟨⟨by rfl, (copy_null_init_or_clone heapInit 0 ScipData.fresh (by rfl)).2.1⟩,
    ⟨by rfl, (copy_null_init_or_clone heap0 0 dSolving (by rfl)).2.2⟩⟩

/-- C10: self-assignment is a no-op (the handle keeps its instance and
still compares equal to its former self), while assignment from a distinct
handle replaces the owned instance with a freshly allocated one holding,
past the initial stage, a deep clone of the source's instance. -/
theorem assign_self_noop_distinct_clones (h : Heap) (m other : Model)
    (dm d : ScipData) (hwf : h.wf)
    (hmm : h.store.lookup m.scip = some dm)
    (ho : h.store.lookup other.scip = some d) :
    Model.assign h m m true = (h, m) ∧
    Model.eq (Model.assign h m m true).2 m = true ∧
    ((Model.assign h m other false).2.scip = h.next ∧
      (Model.assign h m other false).2.scip ≠ m.scip ∧
      (d.stage ≠ Stage.init →
        (Model.assign h m other false).1.store.lookup
          (Model.assign h m other false).2.scip = some d.clone)) := by
  have hlt : m.scip < h.next := lookup_lt_next hwf hmm
  have hself : Model.assign h m m true = (h, m) := by
    unfold Model.assign
    rw [if_pos rfl]
  refine ⟨hself, ?_, ?_⟩
  · rw [hself]
    unfold Model.eq
    simp
  · have h2 : (Model.assign h m other false).2.scip = h.next := by
      unfold Model.assign
      by_cases hs : d.stage = Stage.init
      · rw [scipCopy_init_eq h other.scip d ho hs]
        simp
      · rw [scipCopy_clone_eq h other.scip d ho hs]
        simp
    refine ⟨h2, by omega, ?_⟩
    intro hs
    rw [h2]
    unfold Model.assign
    rw [scipCopy_clone_eq h other.scip d ho hs]
    simp [List.lookup]

/-- C10 witness: the two live handles of the sample heap. -/
theorem assign_self_noop_distinct_clones_witness :
    heap0.wf ∧ heap0.store.lookup m0.scip = some dSolving ∧
    heap0.store.lookup m1.scip = some dProblem ∧
    Model.assign heap0 m0 m0 true = (heap0, m0) ∧
    ((Model.assign heap0 m0 m1 false).2.scip = heap0.next ∧
      (dProblem.stage ≠ Stage.init →
        (Model.assign heap0 m0 m1 false).1.store.lookup
          (Model.assign heap0 m0 m1 false).2.scip = some dProblem.clone)) :=
  ⟨by decide, by rfl, by rfl,
    (assign_self_noop_distinct_clones heap0 m0 m1 dSolving dProblem
      (by decide) (by rfl) (by rfl)).1,
    ⟨(assign_self_noop_distinct_clones heap0 m0 m1 dSolving dProblem
        (by decide) (by rfl) (by rfl)).2.2.1,
      (assign_self_noop_distinct_clones heap0 m0 m1 dSolving dProblem
        (by decide) (by rfl) (by rfl)).2.2.2.2⟩⟩

/-- C7: the set/get round trip holds for every parameter name and every
supported parameter value (all six type tags are the constructors of
`ParamValue`): whenever `set_param` succeeds, a subsequent `get_param` at
the value's type returns exactly the stored value. -/
theorem set_param_then_get_param (d : ScipData) (name : String)
    (v : ParamValue) (d' : ScipData)
    (h : d.setParamTyped name v = Except.ok d') :
    d'.getParamTyped name v.typeOf = Except.ok v :=
  setParamTyped_getParamTyped d name v d' h

/-- C7 witness: set the real-typed time limit to 7 and read it back. -/
theorem set_param_then_get_param_witness :
    dProblem.setParamTyped "limits/time" (ParamValue.real 7) =
      Except.ok dProblem7 ∧
    dProblem7.getParamTyped "limits/time" (ParamValue.real 7).typeOf =
      Except.ok (ParamValue.real 7) :=
  ⟨by rfl,
    set_param_then_get_param dProblem "limits/time" (ParamValue.real 7)
      dProblem7 (by rfl)⟩

/-- C8: `get_param_type`, the typed getter and the typed setter all fail
with the unknown-parameter error when no parameter of the name exists, and
the typed getter/setter fail with the type-mismatch error when the declared
tag disagrees with the requested/supplied type; no coercion happens. -/
theorem param_unknown_or_mismatch_errors (d : ScipData) (name : String)
    (v : ParamValue) (ty t : ParamType) (w : ParamValue) :
    (d.params.lookup name = none →
      d.get_param_type name = Except.error ScipError.unknownParameter ∧
      d.getParamTyped name ty = Except.error ScipError.unknownParameter ∧
      d.setParamTyped name v = Except.error ScipError.unknownParameter) ∧
    (d.params.lookup name = some (t, w) →
      (t ≠ ty →
        d.getParamTyped name ty = Except.error ScipError.typeMismatch) ∧
      (t ≠ v.typeOf →
        d.setParamTyped name v = Except.error ScipError.typeMismatch)) := by
  constructor
  · intro hn
    refine ⟨?_, ?_, ?_⟩
    · unfold ScipData.get_param_type
      rw [hn]
    · unfold ScipData.getParamTyped
      rw [hn]
    · unfold ScipData.setParamTyped
      rw [hn]
  · intro hs
    constructor
    · intro hne
      unfold ScipData.getParamTyped
      rw [hs]
      simp [hne]
    · intro hne
      unfold ScipData.setParamTyped
      rw [hs]
      simp [hne]

/-- C8 witness: an unknown name, and a type mismatch on the real-typed time
limit. -/
theorem param_unknown_or_mismatch_errors_witness :
    dProblem.get_param_type "no/such" = Except.error ScipError.unknownParameter ∧
    dProblem.getParamTyped "limits/time" ParamType.Bool =
      Except.error ScipError.typeMismatch ∧
    dProblem.setParamTyped "limits/time" (ParamValue.bool true) =
      Except.error ScipError.typeMismatch :=
  ⟨((param_unknown_or_mismatch_errors dProblem "no/such" (ParamValue.bool true)
      ParamType.Bool ParamType.Real (ParamValue.real 3600)).1 (by decide)).1,
    (((param_unknown_or_mismatch_errors dProblem "limits/time"
        (ParamValue.bool true) ParamType.Bool ParamType.Real
        (ParamValue.real 3600)).2 (by decide)).1 (by decide)),
    (((param_unknown_or_mismatch_errors dProblem "limits/time"
        (ParamValue.bool true) ParamType.Bool ParamType.Real
        (ParamValue.real 3600)).2 (by decide)).2 (by decide))⟩

/-- C9: writing the seed discards the sign of its argument: for nonzero
`v`, `seed(v)` and `seed(-v)` produce identical stored parameter values,
and after a successful `seed(v)` the seed read back is the magnitude of
`v`. -/
theorem seed_write_discards_sign (d : ScipData) (v : Int) (hv : v ≠ 0) :
    d.seedWrite v = d.seedWrite (-v) ∧
    (∀ d', d.seedWrite v = Except.ok d' →
      d'.seedRead = Except.ok (Int.natAbs v : Int)) := by
  constructor
  · unfold ScipData.seedWrite
    rw [Int.natAbs_neg]
  · intro d' h
    have hg := setParamTyped_getParamTyped d seedParamName
      (ParamValue.int (Int.natAbs v : Int)) d' h
    unfold ScipData.seedRead
    rw [show (ParamValue.int (Int.natAbs v : Int)).typeOf = ParamType.Int
      from rfl] at hg
    rw [hg]

/-- C9 witness: seeding with -5 and with 5 store the same value, and the
seed reads back as 5. -/
theorem seed_write_discards_sign_witness :
    (-5 : Int) ≠ 0 ∧
    dProblem.seedWrite (-5) = dProblem.seedWrite 5 ∧
    dProblem.seedWrite (-5) = Except.ok dSeed5 ∧
    dSeed5.seedRead = Except.ok (Int.natAbs (-5) : Int) :=
  ⟨by decide,
    by
      have := (seed_write_discards_sign dProblem (-5) (by decide)).1
      simpa using this,
    by rfl,
    (seed_write_discards_sign dProblem (-5) (by decide)).2 dSeed5 (by rfl)⟩

-- List helpers for the caching proofs (not claim theorems).

/-- Taking the static prefix back off a refreshed row recovers it. -/
theorem take_append_of_ge (k : Nat) (a b : List Rat) (ha : k ≤ a.length) :
    (a.take k ++ b).take k = a.take k := by
  rw [List.take_append_eq_append_take, List.take_take, List.length_take]
  simp [Nat.min_self, Nat.min_eq_left ha]

/-- Dropping the static prefix off a refreshed row leaves the refreshed
dynamic block. -/
theorem drop_append_of_ge (k : Nat) (a b : List Rat) (ha : k ≤ a.length) :
    (a.take k ++ b).drop k = b := by
  rw [List.drop_append_eq_append_drop, List.length_take]
  have h1 : (a.take k).drop k = [] := by
    apply List.drop_eq_nil_of_le
    simp [List.length_take]
  rw [h1]
  simp [Nat.min_eq_left ha]

/-- Every element of a `zipWith` satisfies any property that all images
satisfy. -/
theorem forall_mem_zipWith {α β γ : Type} (f : α → β → γ) (P : γ → Prop)
    (l₁ : List α) (l₂ : List β) (hf : ∀ a b, P (f a b)) :
    ∀ x ∈ List.zipWith f l₁ l₂, P x := by
  induction l₁ generalizing l₂ with
  | nil => simp
  | cons a t ih =>
    cases l₂ with
    | nil => simp
    | cons b t₂ =>
      intro x hx
      rw [List.zipWith_cons_cons] at hx
      rcases List.mem_cons.mp hx with hx | hx
      · exact hx ▸ hf a b
      · exact ih t₂ x hx

/-- Refreshing dynamic blocks leaves the per-row static prefixes
unchanged. -/
theorem map_take_zipWith_refresh {α : Type} (k : Nat) (g : α → List Rat)
    (l : List (List Rat)) (cs : List α)
    (hlen : l.length = cs.length)
    (hrow : ∀ row ∈ l, k ≤ row.length) :
    (List.zipWith (fun row c => row.take k ++ g c) l cs).map (List.take k) =
      l.map (List.take k) := by
  induction l generalizing cs with
  | nil => simp
  | cons r t ih =>
    cases cs with
    | nil => simp at hlen
    | cons c cs' =>
      rw [List.zipWith_cons_cons, List.map_cons, List.map_cons]
      refine congrArg₂ List.cons ?_ ?_
      · exact take_append_of_ge k r (g c) (hrow r (List.mem_cons_self r t))
      · exact ih cs' (by simpa using hlen)
          (fun row hr => hrow row (List.mem_cons_of_mem _ hr))

/-- Refreshing dynamic blocks recomputes exactly the images of the current
entities. -/
theorem map_drop_zipWith_refresh {α : Type} (k : Nat) (g : α → List Rat)
    (l : List (List Rat)) (cs : List α)
    (hlen : l.length = cs.length)
    (hrow : ∀ row ∈ l, k ≤ row.length) :
    (List.zipWith (fun row c => row.take k ++ g c) l cs).map (List.drop k) =
      cs.map g := by
  induction l generalizing cs with
  | nil => cases cs with
    | nil => simp
    | cons c cs' => simp at hlen
  | cons r t ih =>
    cases cs with
    | nil => simp at hlen
    | cons c cs' =>
      rw [List.zipWith_cons_cons, List.map_cons, List.map_cons]
      refine congrArg₂ List.cons ?_ ?_
      · exact drop_append_of_ge k r (g c) (hrow r (List.mem_cons_self r t))
      · exact ih cs' (by simpa using hlen)
          (fun row hr => hrow row (List.mem_cons_of_mem _ hr))

/-- One edge entry per nonzero coefficient. -/
theorem edgeEntriesAux_length (i : Nat) (rows : List RowData) :
    (edgeEntriesAux i rows).length = structuralNnz rows := by
  induction rows generalizing i with
  | nil => rfl
  | cons r rest ih =>
    simp [edgeEntriesAux, structuralNnz, ih (i + 1)]

/-- A from-scratch observation is well shaped. -/
theorem extractObsFrom_shaped (cols : List ColData) (rows : List RowData) :
    obsShaped (extractObsFrom cols rows) cols.length rows.length := by
  refine ⟨by simp [extractObsFrom], by simp [extractObsFrom], ?_, ?_⟩
  · intro row hr
    rcases List.mem_map.mp hr with ⟨c, _, rfl⟩
    simp [staticVariableFeatures, dynamicVariableFeatures,
      n_static_variable_features]
  · intro row hr
    rcases List.mem_map.mp hr with ⟨r, _, rfl⟩
    simp [staticRowFeatures, dynamicRowFeatures, n_static_row_features]

/-- A cache-refreshed observation is well shaped over the current
entities. -/
theorem updateFromCache_shaped (c : NodeBipartiteObs) (cols : List ColData)
    (rows : List RowData)
    (hv : c.variable_features.length = cols.length)
    (hr : c.row_features.length = rows.length) :
    obsShaped (updateFromCache c cols rows) cols.length rows.length := by
  refine ⟨?_, ?_, ?_, ?_⟩
  · simp [updateFromCache, hv]
  · simp [updateFromCache, hr]
  · exact forall_mem_zipWith _ _ _ _ (fun a b => by
      simp [dynamicVariableFeatures, n_static_variable_features])
  · exact forall_mem_zipWith _ _ _ _ (fun a b => by
      simp [dynamicRowFeatures, n_static_row_features])

/-- The blocks of a cache-refreshed observation: static blocks and edges
are the cached ones, dynamic blocks are the images of the current
entities. -/
theorem updateFromCache_spec (c : NodeBipartiteObs) (cols : List ColData)
    (rows : List RowData)
    (hvl : c.variable_features.length = cols.length)
    (hrl : c.row_features.length = rows.length)
    (hvrow : ∀ row ∈ c.variable_features,
      n_static_variable_features ≤ row.length)
    (hrrow : ∀ row ∈ c.row_features, n_static_row_features ≤ row.length) :
    staticVarBlock (updateFromCache c cols rows) = staticVarBlock c ∧
    staticRowBlock (updateFromCache c cols rows) = staticRowBlock c ∧
    (updateFromCache c cols rows).edge_features = c.edge_features ∧
    dynVarBlock (updateFromCache c cols rows) =
      cols.map dynamicVariableFeatures ∧
    dynRowBlock (updateFromCache c cols rows) = rows.map dynamicRowFeatures :=
  ⟨map_take_zipWith_refresh _ _ _ _ hvl hvrow,
    map_take_zipWith_refresh _ _ _ _ hrl hrrow,
    rfl,
    map_drop_zipWith_refresh _ _ _ _ hvl hvrow,
    map_drop_zipWith_refresh _ _ _ _ hrl hrrow⟩

/-- `extract` in the solving stage, with the branch on the cache state made
explicit. -/
theorem extract_solving_eq (nb : NodeBipartite) (d : ScipData)
    (hs : d.stage = Stage.solving) :
    nb.extract d false =
      (if nb.use_cache && nb.cache_computed then
        Except.ok
          ({ nb with
              the_cache := updateFromCache nb.the_cache d.lpCols d.lpRows },
            some (updateFromCache nb.the_cache d.lpCols d.lpRows))
      else
        Except.ok
          (if nb.use_cache then
            { nb with
                the_cache := extractObsFrom d.lpCols d.lpRows
                cache_computed := true }
          else nb, some (extractObsFrom d.lpCols d.lpRows))) := by
  have hc : d.lp_columns = Except.ok ⟨d.lpCols⟩ := by
    unfold ScipData.lp_columns
    rw [if_neg (by simp [hs])]
  have hr : d.lp_rows = Except.ok ⟨d.lpRows⟩ := by
    unfold ScipData.lp_rows
    rw [if_neg (by simp [hs])]
  unfold NodeBipartite.extract
  rw [hc, hr]
  rfl

/-- C4: extracting in the solving stage with a not-yet-populated cache
succeeds, and the observation has `variable_features` of dimensions
(n, 20) and `row_features` of dimensions (m, 5), with an (m, n) sparse
edge matrix whose entry count is the relaxation's structural nonzero
count, where n and m are the solver-reported column and row counts (in
the solving stage, one LP column per variable). -/
theorem first_extract_obs_shapes (nb : NodeBipartite) (d : ScipData)
    (hs : d.stage = Stage.solving) (hmiss : nb.cache_computed = false) :
    ∃ nb' o, nb.extract d false = Except.ok (nb', some o) ∧
      o.variable_features.length = d.nLPCols ∧
      (∀ row ∈ o.variable_features, row.length = n_variable_features) ∧
      o.row_features.length = d.nLPRows ∧
      (∀ row ∈ o.row_features, row.length = n_row_features) ∧
      o.edge_features.shape = (d.nLPRows, d.nLPCols) ∧
      o.edge_features.entries.length = structuralNnz d.lpRows := by
  rw [extract_solving_eq nb d hs, hmiss, Bool.and_false]
  rw [if_neg (by simp)]
  refine ⟨_, extractObsFrom d.lpCols d.lpRows, rfl, ?_, ?_, ?_, ?_, rfl, ?_⟩
  · simp [extractObsFrom, ScipData.nLPCols]
  · intro row hr
    simp only [extractObsFrom] at hr
    rcases List.mem_map.mp hr with ⟨c, _, rfl⟩
    simp [staticVariableFeatures, dynamicVariableFeatures,
      n_variable_features, n_static_variable_features,
      n_dynamic_variable_features]
  · simp [extractObsFrom, ScipData.nLPRows]
  · intro row hr
    simp only [extractObsFrom] at hr
    rcases List.mem_map.mp hr with ⟨r, _, rfl⟩
    simp [staticRowFeatures, dynamicRowFeatures, n_row_features,
      n_static_row_features, n_dynamic_row_features]
  · exact edgeEntriesAux_length 0 d.lpRows

/-- C4 witness: a fresh non-caching extractor on the sample solving-stage
instance (2 variables, 1 row, 2 nonzeros). -/
theorem first_extract_obs_shapes_witness :
    dSolving.stage = Stage.solving ∧
    (NodeBipartite.new false).cache_computed = false ∧
    (∃ nb' o,
      (NodeBipartite.new false).extract dSolving false =
        Except.ok (nb', some o) ∧
      o.variable_features.length = dSolving.nLPCols ∧
      (∀ row ∈ o.variable_features, row.length = n_variable_features) ∧
      o.row_features.length = dSolving.nLPRows ∧
      (∀ row ∈ o.row_features, row.length = n_row_features) ∧
      o.edge_features.shape = (dSolving.nLPRows, dSolving.nLPCols) ∧
      o.edge_features.entries.length = structuralNnz dSolving.lpRows) :=
  ⟨rfl, rfl,
    first_extract_obs_shapes (NodeBipartite.new false) dSolving rfl rfl⟩

/-- C3: with caching enabled, over two consecutive non-terminal extracts
between which only dynamic solver state changed (same variable/row/edge
structure, and a cache—if already populated—shaped like the state), the
second observation's static variable/row blocks and its edge structure are
identical to the first observation's, while its dynamic blocks are exactly
the features recomputed from the second state's columns and rows. -/
theorem cached_extract_static_reuse (nb : NodeBipartite) (d1 d2 : ScipData)
    (hc : nb.use_cache = true)
    (hs1 : d1.stage = Stage.solving) (hs2 : d2.stage = Stage.solving)
    (hstruct : sameStaticStructure d1 d2)
    (hcache : nb.cache_computed = true →
      nb.the_cache.variable_features.length = d1.lpCols.length ∧
      nb.the_cache.row_features.length = d1.lpRows.length) :
    ∃ nb1 o1 nb2 o2,
      nb.extract d1 false = Except.ok (nb1, some o1) ∧
      nb1.extract d2 false = Except.ok (nb2, some o2) ∧
      staticVarBlock o2 = staticVarBlock o1 ∧
      staticRowBlock o2 = staticRowBlock o1 ∧
      o2.edge_features = o1.edge_features ∧
      dynVarBlock o2 = d2.lpCols.map dynamicVariableFeatures ∧
      dynRowBlock o2 = d2.lpRows.map dynamicRowFeatures := by
  have hlc : d1.lpCols.length = d2.lpCols.length := by
    have h := congrArg List.length hstruct.1
    simpa using h
  have hlr : d1.lpRows.length = d2.lpRows.length := by
    have h := congrArg List.length hstruct.2
    simpa using h
  by_cases hcc : nb.cache_computed = true
  · obtain ⟨hv, hr⟩ := hcache hcc
    have e1 : nb.extract d1 false =
        Except.ok
          ({ nb with
              the_cache := updateFromCache nb.the_cache d1.lpCols d1.lpRows },
            some (updateFromCache nb.the_cache d1.lpCols d1.lpRows)) := by
      rw [extract_solving_eq nb d1 hs1, hc, hcc]
      simp
    have e2 : ({ nb with
          the_cache := updateFromCache nb.the_cache d1.lpCols d1.lpRows } :
            NodeBipartite).extract d2 false =
        Except.ok
          ({ nb with
              the_cache :=
                updateFromCache
                  (updateFromCache nb.the_cache d1.lpCols d1.lpRows)
                  d2.lpCols d2.lpRows },
            some (updateFromCache
              (updateFromCache nb.the_cache d1.lpCols d1.lpRows)
              d2.lpCols d2.lpRows)) := by
      rw [extract_solving_eq _ d2 hs2]
      simp [hc, hcc]
    obtain ⟨hv1, hr1, hvrow1, hrrow1⟩ :=
      updateFromCache_shaped nb.the_cache d1.lpCols d1.lpRows hv hr
    have hspec :=
      updateFromCache_spec
        (updateFromCache nb.the_cache d1.lpCols d1.lpRows)
        d2.lpCols d2.lpRows (hlc ▸ hv1) (hlr ▸ hr1) hvrow1 hrrow1
    exact ⟨_, _, _, _, e1, e2, hspec.1, hspec.2.1, hspec.2.2.1,
      hspec.2.2.2.1, hspec.2.2.2.2⟩
  · have hccf : nb.cache_computed = false := by
      cases h2 : nb.cache_computed
      · rfl
      · exact absurd h2 hcc
    have e1 : nb.extract d1 false =
        Except.ok
          ({ nb with
              the_cache := extractObsFrom d1.lpCols d1.lpRows
              cache_computed := true },
            some (extractObsFrom d1.lpCols d1.lpRows)) := by
      rw [extract_solving_eq nb d1 hs1, hc, hccf]
      simp
    have e2 : ({ nb with
          the_cache := extractObsFrom d1.lpCols d1.lpRows
          cache_computed := true } : NodeBipartite).extract d2 false =
        Except.ok
          ({ nb with
              the_cache :=
                updateFromCache (extractObsFrom d1.lpCols d1.lpRows)
                  d2.lpCols d2.lpRows
              cache_computed := true },
            some (updateFromCache (extractObsFrom d1.lpCols d1.lpRows)
              d2.lpCols d2.lpRows)) := by
      rw [extract_solving_eq _ d2 hs2]
      simp [hc]
    obtain ⟨hv1, hr1, hvrow1, hrrow1⟩ :=
      extractObsFrom_shaped d1.lpCols d1.lpRows
    have hspec :=
      updateFromCache_spec (extractObsFrom d1.lpCols d1.lpRows)
        d2.lpCols d2.lpRows (hlc ▸ hv1) (hlr ▸ hr1) hvrow1 hrrow1
    exact ⟨_, _, _, _, e1, e2, hspec.1, hspec.2.1, hspec.2.2.1,
      hspec.2.2.2.1, hspec.2.2.2.2⟩

/-- C3 witness: a fresh caching extractor over the sample solving-stage
instance and its dynamically-changed successor. -/
theorem cached_extract_static_reuse_witness :
    (NodeBipartite.new true).use_cache = true ∧
    dSolving.stage = Stage.solving ∧
    dSolving'.stage = Stage.solving ∧
    sameStaticStructure dSolving dSolving' ∧
    (∃ nb1 o1 nb2 o2,
      (NodeBipartite.new true).extract dSolving false =
        Except.ok (nb1, some o1) ∧
      nb1.extract dSolving' false = Except.ok (nb2, some o2) ∧
      staticVarBlock o2 = staticVarBlock o1 ∧
      staticRowBlock o2 = staticRowBlock o1 ∧
      o2.edge_features = o1.edge_features ∧
      dynVarBlock o2 = dSolving'.lpCols.map dynamicVariableFeatures ∧
      dynRowBlock o2 = dSolving'.lpRows.map dynamicRowFeatures) :=
  ⟨rfl, rfl, rfl, by decide,
    cached_extract_static_reuse (NodeBipartite.new true) dSolving dSolving'
      rfl rfl rfl (by decide) (by decide)⟩

end Ecole
